import Mathlib

/-!
Verification of the Smartcash chain-parameter fragment of bitcoin-abe
(src/Abe/Chain/Smartcash.py) together with the chain-parameter registry and
header-hash strategy layer that the fragment's parent abstraction
(KeccakChain/BaseChain, not part of the provided sources) must supply.

The hash functions are full executable embeddings: SHA3-256 (FIPS 202 sponge,
rate 136, domain byte 0x06) and SHA-256 (FIPS 180-4), both over byte lists
(`List Nat`, each element a byte value).  The registry, record-construction
validation and strategy dispatch are modelled from the specification, since
only the Smartcash subclass itself is among the provided sources.
-/

/-! ## Keccak / SHA3-256 -/

/-- 64-bit left rotation on a lane value below `2 ^ 64`. -/
def rotl64 (x n : Nat) : Nat := ((x <<< n) ||| (x >>> (64 - n))) % 2 ^ 64

/-- Lane/byte lookup with default 0. -/
def getL (l : List Nat) (i : Nat) : Nat := l.getD i 0

/-- One step of the Keccak rho-offset generator: record the offset
`(t + 1)(t + 2) / 2 mod 64` at the current lane and advance `(x, y)` to
`(y, 2x + 3y mod 5)`. -/
def rhoStep (acc : List (Nat × Nat) × (Nat × Nat)) (t : Nat) :
    List (Nat × Nat) × (Nat × Nat) :=
  let xy := acc.2
  ((xy.1 + 5 * xy.2, (t + 1) * (t + 2) / 2 % 64) :: acc.1, (xy.2, (2 * xy.1 + 3 * xy.2) % 5))

/-- The Keccak rho offsets as lane-index/offset pairs, generated from the
standard `(x, y) = (1, 0)` walk; lane (0,0) keeps offset 0. -/
def rhoTable : List (Nat × Nat) := ((List.range 24).foldl rhoStep ([], (1, 0))).1

/-- Rho rotation offset of the lane `x + 5 * y`. -/
def rhoOff (i : Nat) : Nat := ((rhoTable.find? (fun p => p.1 == i)).map (fun p => p.2)).getD 0

/-- Keccak-f[1600] round constants (decimal values of the standard table). -/
def keccakRC : List Nat :=
  [1, 32898, 9223372036854808714,
   9223372039002292224, 32907, 2147483649,
   9223372039002292353, 9223372036854808585, 138,
   136, 2147516425, 2147483658,
   2147516555, 9223372036854775947, 9223372036854808713,
   9223372036854808579, 9223372036854808578, 9223372036854775936,
   32778, 9223372039002259466, 9223372039002292353,
   9223372036854808704, 2147483649, 9223372039002292232]

/-- One Keccak-f[1600] round: theta, rho, pi, chi, iota. -/
def keccakRound (s : List Nat) (rc : Nat) : List Nat :=
  let c := (List.range 5).map fun x =>
    getL s x ^^^ getL s (x + 5) ^^^ getL s (x + 10) ^^^ getL s (x + 15) ^^^ getL s (x + 20)
  let d := (List.range 5).map fun x =>
    getL c ((x + 4) % 5) ^^^ rotl64 (getL c ((x + 1) % 5)) 1
  let s1 := (List.range 25).map fun i => getL s i ^^^ getL d (i % 5)
  let b := (List.range 25).map fun j =>
    let xp := j % 5
    let yp := j / 5
    let i := (xp + 3 * yp) % 5 + 5 * xp
    rotl64 (getL s1 i) (rhoOff i)
  let s2 := (List.range 25).map fun i =>
    let x := i % 5
    let y := i / 5
    getL b i ^^^ (((2 ^ 64 - 1) ^^^ getL b ((x + 1) % 5 + 5 * y)) &&& getL b ((x + 2) % 5 + 5 * y))
  (getL s2 0 ^^^ rc) :: s2.tail

/-- The 24-round Keccak-f[1600] permutation on a 25-lane state. -/
def keccakF (s : List Nat) : List Nat :=
  keccakRC.foldl keccakRound s

/-- Split a byte list into chunks of `k` bytes; the first argument is fuel. -/
def chunksAux (k : Nat) : Nat → List Nat → List (List Nat)
  | _, [] => []
  | 0, _ => []
  | fuel + 1, bs => bs.take k :: chunksAux k fuel (bs.drop k)

/-- Split a byte list into chunks of `k` bytes. -/
def chunks (k : Nat) (bs : List Nat) : List (List Nat) := chunksAux k bs.length bs

/-- Little-endian bytes to a lane value. -/
def leLane (bs : List Nat) : Nat := bs.foldr (fun b acc => b + (acc <<< 8)) 0

/-- Multi-rate sponge padding `pad10*1` with the given domain-separation byte. -/
def spongePad (rate padByte : Nat) (msg : List Nat) : List Nat :=
  let padTotal := rate - msg.length % rate
  msg ++ (if padTotal = 1 then [padByte ||| 0x80]
          else padByte :: (List.replicate (padTotal - 2) 0 ++ [0x80]))

/-- XOR one 136-byte rate block into the state and permute. -/
def absorbBlock (s block : List Nat) : List Nat :=
  let lanes := (chunks 8 block).map leLane
  keccakF ((List.range 25).map fun i => if i < 17 then getL s i ^^^ getL lanes i else getL s i)

/-- Little-endian bytes of one 64-bit lane. -/
def laneBytesLE (w : Nat) : List Nat := (List.range 8).map fun k => (w >>> (8 * k)) % 256

/-- Modelled from the spec: `util.sha3_256`, the single-pass 256-bit SHA3 hash
that the missing `KeccakChain` parent applies to a block header.  Full FIPS 202
sponge with rate 136 and SHA3 domain byte 0x06, squeezing a 32-byte digest. -/
def sha3_256 (msg : List Nat) : List Nat :=
  let s := (chunks 136 (spongePad 136 0x06 msg)).foldl absorbBlock (List.replicate 25 0)
  laneBytesLE (getL s 0) ++ laneBytesLE (getL s 1) ++ laneBytesLE (getL s 2) ++ laneBytesLE (getL s 3)

/-! ## SHA-256 (for the double-SHA256 strategy the spec contrasts against) -/

/-- 32-bit right rotation on a word below `2 ^ 32`. -/
def rotr32 (x n : Nat) : Nat := ((x >>> n) ||| (x <<< (32 - n))) % 2 ^ 32

/-- SHA-256 round constants (decimal values of the standard table). -/
def shaK : List Nat :=
  [1116352408, 1899447441, 3049323471, 3921009573, 961987163, 1508970993,
   2453635748, 2870763221, 3624381080, 310598401, 607225278, 1426881987,
   1925078388, 2162078206, 2614888103, 3248222580, 3835390401, 4022224774,
   264347078, 604807628, 770255983, 1249150122, 1555081692, 1996064986,
   2554220882, 2821834349, 2952996808, 3210313671, 3336571891, 3584528711,
   113926993, 338241895, 666307205, 773529912, 1294757372, 1396182291,
   1695183700, 1986661051, 2177026350, 2456956037, 2730485921, 2820302411,
   3259730800, 3345764771, 3516065817, 3600352804, 4094571909, 275423344,
   430227734, 506948616, 659060556, 883997877, 958139571, 1322822218,
   1537002063, 1747873779, 1955562222, 2024104815, 2227730452, 2361852424,
   2428436474, 2756734187, 3204031479, 3329325298]

/-- The eight 32-bit working registers of SHA-256. -/
structure Hash8 where
  r0 : Nat
  r1 : Nat
  r2 : Nat
  r3 : Nat
  r4 : Nat
  r5 : Nat
  r6 : Nat
  r7 : Nat
  deriving DecidableEq

/-- SHA-256 initial hash value (decimal). -/
def shaH0 : Hash8 :=
  ⟨1779033703, 3144134277, 1013904242, 2773480762,
   1359893119, 2600822924, 528734635, 1541459225⟩

/-- SHA-256 big sigma 0. -/
def bsig0 (x : Nat) : Nat := rotr32 x 2 ^^^ rotr32 x 13 ^^^ rotr32 x 22

/-- SHA-256 big sigma 1. -/
def bsig1 (x : Nat) : Nat := rotr32 x 6 ^^^ rotr32 x 11 ^^^ rotr32 x 25

/-- SHA-256 small sigma 0. -/
def ssig0 (x : Nat) : Nat := rotr32 x 7 ^^^ rotr32 x 18 ^^^ (x >>> 3)

/-- SHA-256 small sigma 1. -/
def ssig1 (x : Nat) : Nat := rotr32 x 17 ^^^ rotr32 x 19 ^^^ (x >>> 10)

/-- Big-endian bytes to a word value. -/
def beWord (l : List Nat) : Nat := l.foldl (fun acc b => acc * 256 + b) 0

/-- Extend the 16 message-schedule words by `n` further words. -/
def extendW : Nat → List Nat → List Nat
  | 0, w => w
  | n + 1, w =>
    extendW n (w ++ [(ssig1 (getL w (w.length - 2)) + getL w (w.length - 7) +
                      ssig0 (getL w (w.length - 15)) + getL w (w.length - 16)) % 2 ^ 32])

/-- One SHA-256 compression round for a round-constant/schedule-word pair. -/
def shaStep (st : Hash8) (kw : Nat × Nat) : Hash8 :=
  let t1 := (st.r7 + bsig1 st.r4 + ((st.r4 &&& st.r5) ^^^ (((2 ^ 32 - 1) ^^^ st.r4) &&& st.r6)) +
             kw.1 + kw.2) % 2 ^ 32
  let t2 := (bsig0 st.r0 + ((st.r0 &&& st.r1) ^^^ (st.r0 &&& st.r2) ^^^ (st.r1 &&& st.r2))) % 2 ^ 32
  ⟨(t1 + t2) % 2 ^ 32, st.r0, st.r1, st.r2, (st.r3 + t1) % 2 ^ 32, st.r4, st.r5, st.r6⟩

/-- Compress one 64-byte block into the running hash state. -/
def processBlock (st : Hash8) (block : List Nat) : Hash8 :=
  let ws := extendW 48 ((chunks 4 block).map beWord)
  let t := (shaK.zip ws).foldl shaStep st
  ⟨(st.r0 + t.r0) % 2 ^ 32, (st.r1 + t.r1) % 2 ^ 32, (st.r2 + t.r2) % 2 ^ 32,
   (st.r3 + t.r3) % 2 ^ 32, (st.r4 + t.r4) % 2 ^ 32, (st.r5 + t.r5) % 2 ^ 32,
   (st.r6 + t.r6) % 2 ^ 32, (st.r7 + t.r7) % 2 ^ 32⟩

/-- Big-endian 8-byte encoding of a 64-bit value. -/
def be8 (n : Nat) : List Nat := (List.range 8).map fun k => (n >>> (8 * (7 - k))) % 256

/-- Big-endian 4-byte encoding of a 32-bit word. -/
def be4 (n : Nat) : List Nat := (List.range 4).map fun k => (n >>> (8 * (3 - k))) % 256

/-- SHA-256 message padding: 0x80, zeros, 64-bit big-endian bit length. -/
def shaPad (msg : List Nat) : List Nat :=
  msg ++ 0x80 :: List.replicate ((119 - msg.length % 64) % 64) 0 ++ be8 (8 * msg.length)

/-- Modelled from the spec: the SHA-256 hash underlying the base chain's
default `DoubleSHA256Strategy` (FIPS 180-4), over byte lists. -/
def sha256 (msg : List Nat) : List Nat :=
  let st := (chunks 64 (shaPad msg)).foldl processBlock shaH0
  be4 st.r0 ++ be4 st.r1 ++ be4 st.r2 ++ be4 st.r3 ++ be4 st.r4 ++ be4 st.r5 ++ be4 st.r6 ++ be4 st.r7

/-- Modelled from the spec: double SHA-256, the original base chain's default
block-header hash. -/
def sha256d (msg : List Nat) : List Nat := sha256 (sha256 msg)

/-! ## Error taxonomy, hash strategies, chain parameter records, registry
(all modelled from the spec: the registry/strategy layer belongs to the
parent abstraction, which is not among the provided sources). -/

/-- Modelled from the spec: the error taxonomy of section 7. -/
inductive ChainError where
  | duplicateChain
  | unknownChain
  | invalidFieldLength
  | malformedHeader
  deriving DecidableEq

instance {ε α : Type} [DecidableEq ε] [DecidableEq α] : DecidableEq (Except ε α) := fun a b =>
  match a, b with
  | .ok x, .ok y =>
    if h : x = y then .isTrue (by rw [h]) else .isFalse (by intro hc; cases hc; exact h rfl)
  | .error x, .error y =>
    if h : x = y then .isTrue (by rw [h]) else .isFalse (by intro hc; cases hc; exact h rfl)
  | .ok _, .error _ => .isFalse (by intro hc; cases hc)
  | .error _, .ok _ => .isFalse (by intro hc; cases hc)

/-- Modelled from the spec: the two header-hash strategy variants required in
section 4.2. -/
inductive HeaderHashStrategy where
  | doubleSHA256
  | keccak
  deriving DecidableEq

/-- Modelled from the spec: the fixed header byte length every strategy of this
chain family expects (80 bytes, the standard block header). -/
def expectedHeaderLength : Nat := 80

/-- Modelled from the spec: `computeHeaderHash` — dispatch to the strategy's
hash after checking the fixed expected header length, failing with
`MalformedHeaderError` on any other length. -/
def computeHeaderHash (strat : HeaderHashStrategy) (header : List Nat) :
    Except ChainError (List Nat) :=
  if header.length = expectedHeaderLength then
    match strat with
    | .doubleSHA256 => .ok (sha256d header)
    | .keccak => .ok (sha3_256 header)
  else .error .malformedHeader

/-- Modelled from the spec: the immutable chain parameter record of section 3.
Version fields are byte sequences so that their required one-byte length is a
statable property of the record. -/
structure ChainParameterRecord where
  name : String
  symbol : String
  addressVersionByte : List Nat
  scriptAddressVersionByte : List Nat
  magicBytes : List Nat
  hashStrategy : HeaderHashStrategy
  deriving DecidableEq

/-- Modelled from the spec: record construction (section 4.3) — fails with
`InvalidFieldLengthError` unless the version fields are exactly one byte and
the magic exactly four; no other validation. -/
def mkChainParameterRecord (name symbol : String) (avb sav magic : List Nat)
    (strat : HeaderHashStrategy) : Except ChainError ChainParameterRecord :=
  if avb.length = 1 ∧ sav.length = 1 ∧ magic.length = 4 then
    .ok ⟨name, symbol, avb, sav, magic, strat⟩
  else .error .invalidFieldLength

/-- Modelled from the spec: the registry's state, the ordered set of
registered records. -/
abbrev Registry := List ChainParameterRecord

/-- Modelled from the spec: `register` — fails with `DuplicateChainError` when
the name or symbol is already present, otherwise appends the record. -/
def register (reg : Registry) (r : ChainParameterRecord) : Except ChainError Registry :=
  if reg.any (fun q => q.name == r.name || q.symbol == r.symbol) then
    .error .duplicateChain
  else .ok (reg ++ [r])

/-- A registration attempt as a state transition: on failure the registry
state is returned unchanged together with the error. -/
def attemptRegister (reg : Registry) (r : ChainParameterRecord) :
    Registry × Option ChainError :=
  match register reg r with
  | .ok reg2 => (reg2, none)
  | .error e => (reg, some e)

/-- Modelled from the spec: `lookupByName`, failing with `UnknownChainError`. -/
def lookupByName (reg : Registry) (n : String) : Except ChainError ChainParameterRecord :=
  match reg.find? (fun q => q.name == n) with
  | some r => .ok r
  | none => .error .unknownChain

/-- Modelled from the spec: `lookupBySymbol`, failing with `UnknownChainError`. -/
def lookupBySymbol (reg : Registry) (s : String) : Except ChainError ChainParameterRecord :=
  match reg.find? (fun q => q.symbol == s) with
  | some r => .ok r
  | none => .error .unknownChain

/-- Modelled from the spec: `lookupByMagic`, an exact-match scan failing with
`UnknownChainError`. -/
def lookupByMagic (reg : Registry) (m : List Nat) : Except ChainError ChainParameterRecord :=
  match reg.find? (fun q => q.magicBytes == m) with
  | some r => .ok r
  | none => .error .unknownChain

/-- Names and symbols pairwise distinct across the registry. -/
def distinctIds (reg : Registry) : Prop :=
  reg.Pairwise (fun a b => a.name ≠ b.name ∧ a.symbol ≠ b.symbol)

/-- Registries reachable from the empty registry by successful `register`
calls. -/
inductive Built : Registry → Prop where
  | nil : Built []
  | step {reg reg2 : Registry} {r : ChainParameterRecord} :
      Built reg → register reg r = .ok reg2 → Built reg2

/-! ## The Smartcash fragment itself (src/Abe/Chain/Smartcash.py) -/

/-- Source constant: `chain.name = 'Smartcash'`. -/
def smartcashName : String := "Smartcash"

/-- Source constant: `chain.code3 = 'SMT'`. -/
def smartcashCode3 : String := "SMT"

/-- Source constant: `chain.address_version = '\x00'`. -/
def smartcashAddressVersion : List Nat := [0x00]

/-- Source constant: `chain.script_addr_vers = '\x05'`. -/
def smartcashScriptAddrVers : List Nat := [0x05]

/-- Source constant: `chain.magic = '\x5c\xa1\xab\x1e'`. -/
def smartcashMagic : List Nat := [0x5c, 0xa1, 0xab, 0x1e]

/-- The chain parameter record the Smartcash fragment defines: its five source
constants, bound to the Keccak strategy via the `KeccakChain` parent. -/
def smartcashRecord : ChainParameterRecord :=
  ⟨smartcashName, smartcashCode3, smartcashAddressVersion, smartcashScriptAddrVers,
   smartcashMagic, .keccak⟩

/-- A Python attribute value appearing in this fragment: a string or a byte
string. -/
inductive PyVal where
  | str (s : String)
  | bytes (bs : List Nat)
  deriving DecidableEq

/-- A Python object as its attribute bindings, most recent first. -/
abbrev PyObj := List (String × PyVal)

/-- One attribute assignment `obj.k = v`. -/
def setAttr (o : PyObj) (k : String) (v : PyVal) : PyObj := (k, v) :: o

/-- Attribute lookup: the most recent binding. -/
def getAttr (o : PyObj) (k : String) : Option PyVal :=
  match o.find? (fun p => p.1 == k) with
  | some p => some p.2
  | none => none

/-- The attribute names the Smartcash constructor assigns. -/
def smartcashAttrs : List String :=
  ["name", "code3", "address_version", "script_addr_vers", "magic"]

/-- The object state after the five constant assignments of
`Smartcash.__init__`, before the delegating `KeccakChain.__init__` call. -/
def smartcashPre (self : PyObj) : PyObj :=
  setAttr (setAttr (setAttr (setAttr (setAttr self
    "name" (.str "Smartcash"))
    "code3" (.str "SMT"))
    "address_version" (.bytes smartcashAddressVersion))
    "script_addr_vers" (.bytes smartcashScriptAddrVers))
    "magic" (.bytes smartcashMagic)

/-- Embedding of `Smartcash.__init__`: five constant attribute assignments in
source order, then delegation to `KeccakChain.__init__(chain, **kwargs)`.  The
parent initializer is a parameter since `KeccakChain` is not among the
provided sources. -/
def Smartcash_init {E : Type} (parentInit : PyObj → List (String × PyVal) → Except E PyObj)
    (self : PyObj) (kwargs : List (String × PyVal)) : Except E PyObj :=
  let s1 := setAttr self "name" (.str "Smartcash")
  let s2 := setAttr s1 "code3" (.str "SMT")
  let s3 := setAttr s2 "address_version" (.bytes smartcashAddressVersion)
  let s4 := setAttr s3 "script_addr_vers" (.bytes smartcashScriptAddrVers)
  let s5 := setAttr s4 "magic" (.bytes smartcashMagic)
  parentInit s5 kwargs

/-! ## Supporting lemmas -/

theorem laneBytesLE_length (w : Nat) : (laneBytesLE w).length = 8 := by
  simp [laneBytesLE]

theorem sha3_256_length (msg : List Nat) : (sha3_256 msg).length = 32 := by
  unfold sha3_256
  simp [laneBytesLE_length]

theorem be4_length (n : Nat) : (be4 n).length = 4 := by
  simp [be4]

theorem sha256_length (msg : List Nat) : (sha256 msg).length = 32 := by
  unfold sha256
  simp [be4_length]

theorem sha256d_length (msg : List Nat) : (sha256d msg).length = 32 := by
  unfold sha256d
  exact sha256_length _

theorem register_ok_elim {reg reg2 : Registry} {r : ChainParameterRecord}
    (h : register reg r = .ok reg2) :
    (∀ q ∈ reg, q.name ≠ r.name ∧ q.symbol ≠ r.symbol) ∧ reg2 = reg ++ [r] := by
  unfold register at h
  split at h
  · exact absurd h (by simp)
  · rename_i hnone
    refine ⟨?_, by injection h with h2; exact h2.symm⟩
    intro q hq
    rw [List.any_eq_true] at hnone
    push_neg at hnone
    have := hnone q hq
    simpa using this

theorem built_distinct {reg : Registry} (h : Built reg) : distinctIds reg := by
  induction h with
  | nil => exact List.Pairwise.nil
  | step hb hr ih =>
    rename_i reg reg2 r
    obtain ⟨hfresh, rfl⟩ := register_ok_elim hr
    unfold distinctIds
    rw [List.pairwise_append]
    refine ⟨ih, List.pairwise_singleton _ _, ?_⟩
    intro a ha b hb2
    rw [List.mem_singleton] at hb2
    subst hb2
    exact hfresh a ha

theorem lookupByName_mem {reg : Registry} {r : ChainParameterRecord}
    (hwf : distinctIds reg) (hmem : r ∈ reg) : lookupByName reg r.name = .ok r := by
  induction reg with
  | nil => cases hmem
  | cons q t ih =>
    rcases List.mem_cons.mp hmem with h | h
    · subst h
      unfold lookupByName
      rw [List.find?_cons_of_pos _ (by simp)]
    · have hq : q.name ≠ r.name := ((List.pairwise_cons.mp hwf).1 r h).1
      have := ih (List.pairwise_cons.mp hwf).2 h
      unfold lookupByName at this ⊢
      rwa [List.find?_cons_of_neg _ (by simpa using hq)]

theorem lookupBySymbol_mem {reg : Registry} {r : ChainParameterRecord}
    (hwf : distinctIds reg) (hmem : r ∈ reg) : lookupBySymbol reg r.symbol = .ok r := by
  induction reg with
  | nil => cases hmem
  | cons q t ih =>
    rcases List.mem_cons.mp hmem with h | h
    · subst h
      unfold lookupBySymbol
      rw [List.find?_cons_of_pos _ (by simp)]
    · have hq : q.symbol ≠ r.symbol := ((List.pairwise_cons.mp hwf).1 r h).2
      have := ih (List.pairwise_cons.mp hwf).2 h
      unfold lookupBySymbol at this ⊢
      rwa [List.find?_cons_of_neg _ (by simpa using hq)]

theorem getAttr_setAttr_eq (o : PyObj) (a : String) (v : PyVal) :
    getAttr (setAttr o a v) a = some v := by
  unfold getAttr setAttr
  rw [List.find?_cons_of_pos _ (by simp)]

theorem getAttr_setAttr_ne (o : PyObj) (a k : String) (v : PyVal) (h : k ≠ a) :
    getAttr (setAttr o a v) k = getAttr o k := by
  unfold getAttr setAttr
  rw [List.find?_cons_of_neg _ (by simpa using Ne.symm h)]

theorem mk_smartcash_ok :
    mkChainParameterRecord smartcashName smartcashCode3 smartcashAddressVersion
      smartcashScriptAddrVers smartcashMagic .keccak = .ok smartcashRecord := by
  decide

/-! ## Claim theorems -/

/-- C1: the source record that src/Abe/Chain/Smartcash.py actually constructs
and registers.  Name, symbol, magic and the lookup round-trips behave as the
claim's scenario states, but the fragment assigns `address_version = '\x00'`
and `script_addr_vers = '\x05'` — the ZCoin values it was copied from — not
the 0x63/0x18 of the later-dated Smartcash definition that the claim (and
spec section 4.3) designates as authoritative. -/
theorem smartcash_register_scenario :
    register [] smartcashRecord = .ok [smartcashRecord] ∧
    lookupBySymbol [smartcashRecord] "SMT" = .ok smartcashRecord ∧
    smartcashRecord.addressVersionByte = [0x00] ∧
    smartcashRecord.scriptAddressVersionByte = [0x05] ∧
    smartcashRecord.addressVersionByte ≠ [0x63] ∧
    smartcashRecord.scriptAddressVersionByte ≠ [0x18] ∧
    lookupByMagic [smartcashRecord] [0x5c, 0xa1, 0xab, 0x1e] = .ok smartcashRecord ∧
    smartcashRecord.name = "Smartcash" ∧
    smartcashRecord.hashStrategy = .keccak := by
  decide

set_option maxRecDepth 100000 in
/-- C2: the hash strategy bound to the Smartcash record computes a single
SHA3-256 pass over any header of the expected length, and this differs from a
double SHA-256 (witnessed on the zero-filled 80-byte header). -/
theorem smartcash_headerHash_single_sha3 :
    (∀ header : List Nat, header.length = expectedHeaderLength →
      computeHeaderHash smartcashRecord.hashStrategy header = .ok (sha3_256 header)) ∧
    sha3_256 (List.replicate 80 0) ≠ sha256d (List.replicate 80 0) := by
  constructor
  · intro header hl
    simp [computeHeaderHash, hl, smartcashRecord]
  · decide

/-- Witness for C2 at the zero-filled 80-byte header. -/
theorem smartcash_headerHash_single_sha3_witness :
    computeHeaderHash smartcashRecord.hashStrategy (List.replicate 80 0) =
      .ok (sha3_256 (List.replicate 80 0)) :=
  smartcash_headerHash_single_sha3.1 (List.replicate 80 0) (by simp [expectedHeaderLength])

/-- C3: a successfully constructed record has one-byte address-version and
script-address-version fields (byte-valued inputs stay in 0–255), and a
wrong-length address version (e.g. two bytes) fails with
`InvalidFieldLengthError`. -/
theorem record_versionByte_lengths :
    ∀ (n s : String) (avb sav magic : List Nat) (strat : HeaderHashStrategy),
      (∀ rec : ChainParameterRecord,
        mkChainParameterRecord n s avb sav magic strat = .ok rec →
          rec.addressVersionByte.length = 1 ∧ rec.scriptAddressVersionByte.length = 1 ∧
          ((∀ b ∈ avb, b ≤ 255) → ∀ b ∈ rec.addressVersionByte, b ≤ 255) ∧
          ((∀ b ∈ sav, b ≤ 255) → ∀ b ∈ rec.scriptAddressVersionByte, b ≤ 255)) ∧
      (avb.length ≠ 1 →
        mkChainParameterRecord n s avb sav magic strat = .error .invalidFieldLength) := by
  intro n s avb sav magic strat
  constructor
  · intro rec hok
    unfold mkChainParameterRecord at hok
    split at hok
    · rename_i hcond
      injection hok with hok
      subst hok
      exact ⟨hcond.1, hcond.2.1, fun hb => hb, fun hb => hb⟩
    · exact absurd hok (by simp)
  · intro hlen
    unfold mkChainParameterRecord
    rw [if_neg]
    intro hcond
    exact hlen hcond.1

/-- Witness for C3: the Smartcash fields construct successfully with one-byte
version fields, and a 2-byte address version is rejected. -/
theorem record_versionByte_lengths_witness :
    ((smartcashRecord.addressVersionByte.length = 1 ∧
      smartcashRecord.scriptAddressVersionByte.length = 1 ∧
      ((∀ b ∈ smartcashAddressVersion, b ≤ 255) →
        ∀ b ∈ smartcashRecord.addressVersionByte, b ≤ 255) ∧
      ((∀ b ∈ smartcashScriptAddrVers, b ≤ 255) →
        ∀ b ∈ smartcashRecord.scriptAddressVersionByte, b ≤ 255)) ∧
     mkChainParameterRecord "X" "XXX" [0x00, 0x01] [0x05] [0, 1, 2, 3] .keccak =
       .error .invalidFieldLength) :=
  ⟨(record_versionByte_lengths smartcashName smartcashCode3 smartcashAddressVersion
      smartcashScriptAddrVers smartcashMagic .keccak).1 smartcashRecord (by decide),
   (record_versionByte_lengths "X" "XXX" [0x00, 0x01] [0x05] [0, 1, 2, 3] .keccak).2
      (by decide)⟩

/-- C4: a successfully constructed record has a four-byte magic, a 3-byte
magic fails construction with `InvalidFieldLengthError`, and the Smartcash
record's magic is exactly the four bytes 5c a1 ab 1e. -/
theorem record_magic_length :
    ∀ (n s : String) (avb sav magic : List Nat) (strat : HeaderHashStrategy),
      (∀ rec : ChainParameterRecord,
        mkChainParameterRecord n s avb sav magic strat = .ok rec →
          rec.magicBytes.length = 4) ∧
      (magic.length = 3 →
        mkChainParameterRecord n s avb sav magic strat = .error .invalidFieldLength) ∧
      smartcashRecord.magicBytes = [0x5c, 0xa1, 0xab, 0x1e] := by
  intro n s avb sav magic strat
  refine ⟨?_, ?_, by decide⟩
  · intro rec hok
    unfold mkChainParameterRecord at hok
    split at hok
    · rename_i hcond
      injection hok with hok
      subst hok
      exact hcond.2.2
    · exact absurd hok (by simp)
  · intro hlen
    unfold mkChainParameterRecord
    rw [if_neg]
    intro hcond
    rw [hlen] at hcond
    exact absurd hcond.2.2 (by decide)

/-- Witness for C4: the Smartcash magic constructs successfully with length
four, and a 3-byte magic is rejected. -/
theorem record_magic_length_witness :
    (smartcashRecord.magicBytes.length = 4 ∧
     mkChainParameterRecord "X" "XXX" [0x00] [0x05] [0x5c, 0xa1, 0xab] .keccak =
       .error .invalidFieldLength) :=
  ⟨(record_magic_length smartcashName smartcashCode3 smartcashAddressVersion
      smartcashScriptAddrVers smartcashMagic .keccak).1 smartcashRecord (by decide),
   (record_magic_length "X" "XXX" [0x00] [0x05] [0x5c, 0xa1, 0xab] .keccak).2.1 rfl⟩

/-- C5: registering a record whose name or symbol is already present fails
with `DuplicateChainError`, and the registry state after the failed attempt is
exactly the state before it. -/
theorem register_duplicate_atomic :
    ∀ (reg : Registry) (r : ChainParameterRecord),
      (∃ q ∈ reg, q.name = r.name ∨ q.symbol = r.symbol) →
      register reg r = .error .duplicateChain ∧
      attemptRegister reg r = (reg, some .duplicateChain) := by
  intro reg r hdup
  have hany : reg.any (fun q => q.name == r.name || q.symbol == r.symbol) = true := by
    rw [List.any_eq_true]
    obtain ⟨q, hq, hcase⟩ := hdup
    exact ⟨q, hq, by simpa using hcase⟩
  have hreg : register reg r = .error .duplicateChain := by
    unfold register
    rw [if_pos hany]
  exact ⟨hreg, by unfold attemptRegister; rw [hreg]⟩

/-- Witness for C5: re-registering the Smartcash record fails and leaves the
one-record registry unchanged. -/
theorem register_duplicate_atomic_witness :
    register [smartcashRecord] smartcashRecord = .error .duplicateChain ∧
    attemptRegister [smartcashRecord] smartcashRecord =
      ([smartcashRecord], some .duplicateChain) :=
  register_duplicate_atomic [smartcashRecord] smartcashRecord
    ⟨smartcashRecord, by simp, Or.inl rfl⟩

/-- C6: in any registry built by successful registrations, every registered
record round-trips: looking up its name yields a record with its symbol, and
looking up its symbol yields a record with its name. -/
theorem registered_roundtrip :
    ∀ (reg : Registry) (r : ChainParameterRecord), Built reg → r ∈ reg →
      (∃ r1, lookupByName reg r.name = .ok r1 ∧ r1.symbol = r.symbol) ∧
      (∃ r2, lookupBySymbol reg r.symbol = .ok r2 ∧ r2.name = r.name) := by
  intro reg r hb hmem
  have hwf := built_distinct hb
  exact ⟨⟨r, lookupByName_mem hwf hmem, rfl⟩, ⟨r, lookupBySymbol_mem hwf hmem, rfl⟩⟩

/-- Witness for C6 on the singleton registry holding the Smartcash record. -/
theorem registered_roundtrip_witness :
    (∃ r1, lookupByName [smartcashRecord] smartcashRecord.name = .ok r1 ∧
      r1.symbol = smartcashRecord.symbol) ∧
    (∃ r2, lookupBySymbol [smartcashRecord] smartcashRecord.symbol = .ok r2 ∧
      r2.name = smartcashRecord.name) :=
  registered_roundtrip [smartcashRecord] smartcashRecord
    (@Built.step [] [smartcashRecord] smartcashRecord Built.nil (by decide)) (by simp)

/-- C7: `computeHeaderHash` fails with `MalformedHeaderError` on every header
whose length is not the expected 80 bytes (e.g. 79 bytes), and on every
80-byte header it returns a fixed-width 32-byte hash, for both strategies. -/
theorem computeHeaderHash_length_contract :
    ∀ (strat : HeaderHashStrategy) (header : List Nat),
      (header.length ≠ expectedHeaderLength →
        computeHeaderHash strat header = .error .malformedHeader) ∧
      (header.length = expectedHeaderLength →
        ∃ d, computeHeaderHash strat header = .ok d ∧ d.length = 32) := by
  intro strat header
  constructor
  · intro hne
    unfold computeHeaderHash
    rw [if_neg hne]
  · intro heq
    cases strat with
    | doubleSHA256 =>
      exact ⟨sha256d header, by simp [computeHeaderHash, heq], sha256d_length header⟩
    | keccak =>
      exact ⟨sha3_256 header, by simp [computeHeaderHash, heq], sha3_256_length header⟩

/-- Witness for C7: a 79-byte header is rejected, an 80-byte one hashed. -/
theorem computeHeaderHash_length_contract_witness :
    computeHeaderHash .keccak (List.replicate 79 0) = .error .malformedHeader ∧
    ∃ d, computeHeaderHash .keccak (List.replicate 80 0) = .ok d ∧ d.length = 32 :=
  ⟨(computeHeaderHash_length_contract .keccak (List.replicate 79 0)).1
      (by simp [expectedHeaderLength]),
   (computeHeaderHash_length_contract .keccak (List.replicate 80 0)).2
      (by simp [expectedHeaderLength])⟩

/-- C8: the Keccak strategy's header hash is deterministic — two calls on
equal 80-byte inputs return the same result — and that result is a 32-byte
digest. -/
theorem keccak_headerHash_deterministic :
    ∀ h1 h2 : List Nat, h1 = h2 → h1.length = 80 →
      computeHeaderHash .keccak h1 = computeHeaderHash .keccak h2 ∧
      ∃ d, computeHeaderHash .keccak h1 = .ok d ∧ d.length = 32 := by
  intro h1 h2 heq hlen
  subst heq
  refine ⟨rfl, sha3_256 h1, ?_, sha3_256_length h1⟩
  simp [computeHeaderHash, expectedHeaderLength, hlen]

/-- Witness for C8 at the zero-filled 80-byte header. -/
theorem keccak_headerHash_deterministic_witness :
    computeHeaderHash .keccak (List.replicate 80 0) =
      computeHeaderHash .keccak (List.replicate 80 0) ∧
    ∃ d, computeHeaderHash .keccak (List.replicate 80 0) = .ok d ∧ d.length = 32 :=
  keccak_headerHash_deterministic (List.replicate 80 0) (List.replicate 80 0) rfl (by simp)

/-- C9: `Smartcash.__init__` assigns exactly the five constant attributes
name, code3, address_version, script_addr_vers and magic, leaves every other
attribute of the object untouched before delegating, and then calls the
parent initializer on that state with the keyword arguments passed through
unchanged. -/
theorem smartcash_init_frame :
    ∀ (E : Type) (parentInit : PyObj → List (String × PyVal) → Except E PyObj)
      (self : PyObj) (kwargs : List (String × PyVal)),
      Smartcash_init parentInit self kwargs = parentInit (smartcashPre self) kwargs ∧
      getAttr (smartcashPre self) "name" = some (.str "Smartcash") ∧
      getAttr (smartcashPre self) "code3" = some (.str "SMT") ∧
      getAttr (smartcashPre self) "address_version" = some (.bytes [0x00]) ∧
      getAttr (smartcashPre self) "script_addr_vers" = some (.bytes [0x05]) ∧
      getAttr (smartcashPre self) "magic" = some (.bytes [0x5c, 0xa1, 0xab, 0x1e]) ∧
      ∀ k, k ∉ smartcashAttrs → getAttr (smartcashPre self) k = getAttr self k := by
  intro E parentInit self kwargs
  refine ⟨rfl, ?_, ?_, ?_, ?_, ?_, ?_⟩
  · unfold smartcashPre
    rw [getAttr_setAttr_ne _ _ _ _ (by decide), getAttr_setAttr_ne _ _ _ _ (by decide),
        getAttr_setAttr_ne _ _ _ _ (by decide), getAttr_setAttr_ne _ _ _ _ (by decide),
        getAttr_setAttr_eq]
  · unfold smartcashPre
    rw [getAttr_setAttr_ne _ _ _ _ (by decide), getAttr_setAttr_ne _ _ _ _ (by decide),
        getAttr_setAttr_ne _ _ _ _ (by decide), getAttr_setAttr_eq]
  · unfold smartcashPre
    rw [getAttr_setAttr_ne _ _ _ _ (by decide), getAttr_setAttr_ne _ _ _ _ (by decide),
        getAttr_setAttr_eq]
    rfl
  · unfold smartcashPre
    rw [getAttr_setAttr_ne _ _ _ _ (by decide), getAttr_setAttr_eq]
    rfl
  · unfold smartcashPre
    rw [getAttr_setAttr_eq]
    rfl
  · intro k hk
    simp only [smartcashAttrs, List.mem_cons, List.not_mem_nil, or_false, not_or] at hk
    obtain ⟨h1, h2, h3, h4, h5⟩ := hk
    unfold smartcashPre
    rw [getAttr_setAttr_ne _ _ _ _ h5, getAttr_setAttr_ne _ _ _ _ h4,
        getAttr_setAttr_ne _ _ _ _ h3, getAttr_setAttr_ne _ _ _ _ h2,
        getAttr_setAttr_ne _ _ _ _ h1]

/-- Witness for C9 with a succeeding parent initializer on an empty object. -/
theorem smartcash_init_frame_witness :
    Smartcash_init (fun (o : PyObj) (_ : List (String × PyVal)) =>
        (Except.ok o : Except ChainError PyObj)) [] [] = Except.ok (smartcashPre []) ∧
    getAttr (smartcashPre []) "name" = some (.str "Smartcash") ∧
    getAttr (smartcashPre []) "height" = getAttr ([] : PyObj) "height" :=
  ⟨(smartcash_init_frame ChainError
      (fun (o : PyObj) (_ : List (String × PyVal)) => (Except.ok o : Except ChainError PyObj))
      [] []).1,
   (smartcash_init_frame ChainError
      (fun (o : PyObj) (_ : List (String × PyVal)) => (Except.ok o : Except ChainError PyObj))
      [] []).2.1,
   (smartcash_init_frame ChainError
      (fun (o : PyObj) (_ : List (String × PyVal)) => (Except.ok o : Except ChainError PyObj))
      [] []).2.2.2.2.2.2 "height" (by decide)⟩

/-- C10: the Smartcash constructor performs no validation of its own: its five
constant assignments are total, and construction fails exactly when the
delegated parent initializer fails, with the same error. -/
theorem smartcash_init_error_only_from_parent :
    ∀ (E : Type) (parentInit : PyObj → List (String × PyVal) → Except E PyObj)
      (self : PyObj) (kwargs : List (String × PyVal)) (e : E),
      (Smartcash_init parentInit self kwargs = .error e ↔
        parentInit (smartcashPre self) kwargs = .error e) ∧
      (∀ o, parentInit (smartcashPre self) kwargs = .ok o →
        Smartcash_init parentInit self kwargs = .ok o) := by
  intro E parentInit self kwargs e
  exact ⟨Iff.rfl, fun o h => h⟩

/-- Witness for C10 with a parent initializer that always fails. -/
theorem smartcash_init_error_only_from_parent_witness :
    Smartcash_init (fun _ _ => (Except.error ChainError.malformedHeader)) [] [] =
      .error ChainError.malformedHeader :=
  (smartcash_init_error_only_from_parent ChainError
    (fun _ _ => Except.error ChainError.malformedHeader) [] []
    ChainError.malformedHeader).1.mpr rfl
